import Mathlib

/-
Verification of the transaction-extraction core of ResumenSantTCBot
(src/main.py, class PDFTableExtractor).

The Python source is shallowly embedded over `List Char`:
text lines are lists of characters, the regular expressions of the
source are translated into explicit leftmost-match scanners with the
greedy/backtracking behaviour of Python's `re` module, pandas column
operations become list maps/filters/folds, and Python floats are
modelled by exact rationals (the amounts involved are small decimal
numbers, where float arithmetic is exact enough that the spec's
scenarios are unaffected).  Unicode-specific behaviour (`str.upper`,
`str.strip`, `\d`, `\s` beyond ASCII) is modelled for the ASCII
range, which covers every string the source manipulates.
-/

namespace ResumenTC

/-- Whitespace characters as matched by Python's `str.strip` and `\s`
(restricted to the ASCII range). -/
def isPySpace (c : Char) : Bool :=
  c == ' ' || c == '\t' || c == '\n' || c == '\x0b' || c == '\x0c' || c == '\r'

/-- Python `str.strip()`: drop leading and trailing whitespace. -/
def pyStrip (cs : List Char) : List Char :=
  ((cs.dropWhile isPySpace).reverse.dropWhile isPySpace).reverse

/-- Python `str.upper()` (ASCII range). -/
def pyUpper (cs : List Char) : List Char := cs.map Char.toUpper

/-- Does `hay` start with `needle`? -/
def startsWithL : List Char → List Char → Bool
  | [], _ => true
  | _ :: _, [] => false
  | a :: as, b :: bs => a == b && startsWithL as bs

/-- Python's `needle in hay` on strings: contiguous-substring test. -/
def containsSub (needle : List Char) : List Char → Bool
  | [] => startsWithL needle []
  | c :: t => startsWithL needle (c :: t) || containsSub needle t

/-- Numeric value of a list of decimal digit characters (most significant first). -/
def digitsToNat (ds : List Char) : Nat :=
  ds.foldl (fun a c => 10 * a + (c.toNat - 48)) 0

/-- Python slice `cs[a:b]` for `0 ≤ a, b` (empty when `b ≤ a`). -/
def pySlice (a b : Nat) (cs : List Char) : List Char := (cs.drop a).take (b - a)

/-- Python `str.rfind(c)`: index of the last occurrence of `c`, if any. -/
def lastIndexOf (c : Char) : List Char → Option Nat
  | [] => none
  | a :: as =>
    match lastIndexOf c as with
    | some i => some (i + 1)
    | none => if a == c then some 0 else none

/-! Model of the regex `\d{2}/\d{2}/\d{2,4}` (`date_pattern` in the source),
with `re.search` leftmost semantics and a greedy 2-to-4-digit year. -/

/-- Length of the `date_pattern` match anchored at the head of `cs`, if any. -/
def dateMatchAt (cs : List Char) : Option Nat :=
  match cs with
  | d1 :: d2 :: s1 :: d3 :: d4 :: s2 :: rest =>
    if d1.isDigit && d2.isDigit && s1 == '/' && d3.isDigit && d4.isDigit && s2 == '/' then
      match rest with
      | y1 :: y2 :: r2 =>
        if y1.isDigit && y2.isDigit then
          match r2 with
          | y3 :: r3 =>
            if y3.isDigit then
              match r3 with
              | y4 :: _ => if y4.isDigit then some 10 else some 9
              | [] => some 9
            else some 8
          | [] => some 8
        else none
      | _ => none
    else none
  | _ => none

/-- Scan for the leftmost `date_pattern` match, carrying the current index. -/
def dateSearchAux : List Char → Nat → Option (Nat × Nat)
  | [], _ => none
  | c :: cs, i =>
    match dateMatchAt (c :: cs) with
    | some len => some (i, i + len)
    | none => dateSearchAux cs (i + 1)

/-- Python `date_pattern.search(line)` returning `(start, end)` of the first match. -/
def dateSearch (cs : List Char) : Option (Nat × Nat) := dateSearchAux cs 0

/-! Model of the regex `\$\s*([-–]?\d{1,3}(?:\.\d{3})*(?:[.,]\d{2})?)`
(`amount_pattern` in the source).  Every quantifier can be resolved by
maximal munch: the tail of the pattern can always match the empty string,
so the greedy choices of `\s*`, `\d{1,3}`, the thousands-group star and
the optional decimal part are final (no backtracking is observable). -/

/-- Greedy `(?:\.\d{3})*`: returns the consumed characters and the remainder. -/
def starThousands (cs : List Char) : List Char × List Char :=
  match cs with
  | '.' :: a :: b :: c :: rest =>
    if a.isDigit && b.isDigit && c.isDigit then
      let p := starThousands rest
      ('.' :: a :: b :: c :: p.1, p.2)
    else ([], '.' :: a :: b :: c :: rest)
  | _ => ([], cs)

/-- Match of `amount_pattern` directly after its `\$`: returns the text of
capture group 1 together with the number of characters consumed after the
dollar sign. -/
def amountAfterDollar (cs : List Char) : Option (List Char × Nat) :=
  let ws := cs.takeWhile isPySpace
  let r1 := cs.drop ws.length
  let sign : List Char :=
    match r1 with
    | c :: _ => if c == '-' || c == '–' then [c] else []
    | [] => []
  let r2 := r1.drop sign.length
  let drun := r2.takeWhile Char.isDigit
  if drun.isEmpty then none
  else
    let d1 := drun.take 3
    let r3 := r2.drop d1.length
    let p := starThousands r3
    let r4 := p.2
    let dec : List Char :=
      match r4 with
      | c :: a :: b :: _ =>
        if (c == '.' || c == ',') && a.isDigit && b.isDigit then [c, a, b] else []
      | _ => []
    let g := sign ++ d1 ++ p.1 ++ dec
    some (g, ws.length + sign.length + d1.length + p.1.length + dec.length)

/-- Scanner behind `amountFindall`; the fuel argument dominates the length
of the remaining text, making the recursion structural (and hence
evaluable inside the kernel). -/
def amountFindallAux : Nat → List Char → List (List Char)
  | 0, _ => []
  | _ + 1, [] => []
  | fuel + 1, c :: cs =>
    if c == '$' then
      match amountAfterDollar cs with
      | some p => p.1 :: amountFindallAux fuel (cs.drop p.2)
      | none => amountFindallAux fuel cs
    else amountFindallAux fuel cs

/-- Python `amount_pattern.findall(line)`: non-overlapping left-to-right
matches, returning capture group 1 of each. -/
def amountFindall (cs : List Char) : List (List Char) :=
  amountFindallAux cs.length cs

/-! Model of the regex `(\d{1,2})/(\d{1,2})\s*$` used by `struct_cuotas`,
with `re.search` leftmost semantics and greedy group lengths.  `$` is
modelled as end-of-string (descriptions never contain a newline, having
been produced by `splitlines`). -/

/-- Second capture group `(\d{1,2})` followed by `\s*$`: greedy, preferring
two digits over one. -/
def cuotasTryD2 (cs : List Char) : Option (List Char) :=
  match cs with
  | a :: b :: rest =>
    if a.isDigit && b.isDigit && rest.all isPySpace then some [a, b]
    else if a.isDigit && (b :: rest).all isPySpace then some [a]
    else none
  | [a] => if a.isDigit then some [a] else none
  | [] => none

/-- Attempt of the full cuotas pattern at the head of `cs`, preferring the
two-digit first group (greedy) and backtracking to one digit. -/
def cuotasMatchAt (cs : List Char) : Option (Nat × Nat) :=
  match cs with
  | a :: b :: '/' :: rest =>
    if a.isDigit && b.isDigit then
      match cuotasTryD2 rest with
      | some d2 => some (digitsToNat [a, b], digitsToNat d2)
      | none => cuotasOneDigit (a :: b :: '/' :: rest)
    else cuotasOneDigit (a :: b :: '/' :: rest)
  | _ => cuotasOneDigit cs
where
  /-- Fallback with a one-digit first group. -/
  cuotasOneDigit : List Char → Option (Nat × Nat)
  | a :: '/' :: rest =>
    if a.isDigit then
      match cuotasTryD2 rest with
      | some d2 => some (digitsToNat [a], digitsToNat d2)
      | none => none
    else none
  | _ => none

/-- Python `re.search(r'(\d\x7b1,2\x7d)/(\d\x7b1,2\x7d)\s*$', text)` of
`PDFTableExtractor.struct_cuotas`: leftmost match, parsed installment
pair, `none` where the source returns `(np.nan, np.nan)`. -/
def struct_cuotas : List Char → Option (Nat × Nat)
  | [] => none
  | c :: t =>
    match cuotasMatchAt (c :: t) with
    | some r => some r
    | none => struct_cuotas t

end ResumenTC

namespace ResumenTC

/-- Models the Python builtin `float(s)` on the decimal shapes reachable from
the amount regex after separator cleaning: an optional sign, an integer
digit run, and an optional fractional digit run (at least one digit in
total, nothing else).  Exotic float syntax (exponents, `inf`, `nan`,
underscores, surrounding whitespace) is not produced by the pipeline and is
mapped to `none`.  Values are exact rationals. -/
def pyFloat (s : List Char) : Option ℚ :=
  let sp : Bool × List Char :=
    match s with
    | '-' :: rest => (true, rest)
    | '+' :: rest => (false, rest)
    | _ => (false, s)
  let r1 := sp.2
  let intPart := r1.takeWhile Char.isDigit
  let r2 := r1.drop intPart.length
  let mag : Option ℚ :=
    match r2 with
    | [] => if intPart.isEmpty then none else some (digitsToNat intPart : ℚ)
    | '.' :: fr =>
      let frac := fr.takeWhile Char.isDigit
      if (fr.drop frac.length).isEmpty then
        if intPart.isEmpty && frac.isEmpty then none
        else some ((digitsToNat intPart : ℚ) + (digitsToNat frac : ℚ) / (10 ^ frac.length : ℚ))
      else none
    | _ => none
  mag.map (fun q => if sp.1 then -q else q)

/-- Python single-character `str.replace(a, b)`. -/
def pyReplace (a b : Char) (cs : List Char) : List Char :=
  cs.map (fun c => if c == a then b else c)

/-- PDFTableExtractor.convert_amount: strip `.` as thousands separator,
turn a `,` decimal separator into `.`, then parse as float
(`None` on failure). -/
def convert_amount (s : List Char) : Option ℚ :=
  let s2 :=
    if s.contains ',' then pyReplace ',' '.' (s.filter (fun c => c != '.'))
    else s.filter (fun c => c != '.')
  pyFloat s2

/-- The exclusion keyword list of PDFTableExtractor.transaction_validator. -/
def exclude_keywords : List (List Char) :=
  ["TOTAL OPERACIONES", "MONTO CANCELADO", "MOVIMIENTOS TARJETA",
   "PAGAR HASTA", "FACTURADO"].map String.data

/-- Combined text checked by the validator: the place (replaced by the
sentinel when empty or whitespace-only), a space, and the description,
uppercased. -/
def combinedUpper (lugar detalle : List Char) : List Char :=
  let lugar2 :=
    if lugar.isEmpty || (pyStrip lugar).isEmpty then "SIN LUGAR".data else lugar
  pyUpper (lugar2 ++ [' '] ++ detalle)

/-- PDFTableExtractor.transaction_validator: `true` iff the row is kept. -/
def transaction_validator (lugar detalle : List Char) : Bool :=
  if exclude_keywords.any (fun k => containsSub k (combinedUpper lugar detalle)) then false
  else if (dateSearch detalle).isSome then false
  else true

/-- PDFTableExtractor.assign_group: first keyword of the ordered mapping
found inside the uppercased description wins; default group CONSUMO. -/
def assign_group : List (List Char × List Char) → List Char → List Char
  | [], _ => "CONSUMO".data
  | (k, g) :: rest, detalle =>
    if containsSub k (pyUpper detalle) then g else assign_group rest detalle

/-- Raw tuple appended to `self.transactions` by struct_text. -/
structure RawRow where
  fecha : List Char
  lugar : List Char
  detalle : List Char
  valor : List Char
deriving DecidableEq

/-- Row of `df_o` after the VALOR column has been converted to numbers. -/
structure Row1 where
  FECHA : List Char
  LUGAR : List Char
  DETALLE : List Char
  VALOR : Option ℚ
deriving DecidableEq

/-- Row of the final transaction table `df_o`. -/
structure Row where
  FECHA : List Char
  LUGAR : List Char
  DETALLE : List Char
  VALOR : Option ℚ
  FG_CUOTA : Bool
  N_CUOTA : Option Nat
  CUOTAS_TOT : Option Nat
  GRUPO : List Char
deriving DecidableEq

/-- Per-line body of the loop of PDFTableExtractor.struct_text: `some` raw
tuple when the line is appended to `self.transactions`. -/
def classifyLine (line : List Char) : Option RawRow :=
  if line.contains '$' then
    match dateSearch line with
    | none => none
    | some se =>
      match (amountFindall line).getLast? with
      | none => none
      | some valor =>
        let s := se.1
        let e := se.2
        let fecha := pySlice s e line
        let lugar := if 0 < s then pyStrip (line.take s) else "SIN LUGAR".data
        let lastD := (lastIndexOf '$' line).getD 0
        let detalle := pyStrip (pySlice e lastD line)
        some ⟨fecha, lugar, detalle, valor⟩
  else none

/-- Conversion of the VALOR column (`df_o["VALOR"].apply(convert_amount)`). -/
def convertRow (r : RawRow) : Row1 :=
  ⟨r.fecha, r.lugar, r.detalle, convert_amount r.valor⟩

/-- Derived columns FG_CUOTA, N_CUOTA, CUOTAS_TOT and GRUPO of struct_text. -/
def mkRow (gd : List (List Char × List Char)) (r : Row1) : Row :=
  let fg := containsSub "CUOTA".data (pyUpper r.DETALLE)
  let nc := if fg then struct_cuotas r.DETALLE else none
  ⟨r.FECHA, r.LUGAR, r.DETALLE, r.VALOR, fg,
   nc.map Prod.fst, nc.map Prod.snd, assign_group gd r.DETALLE⟩

/-- PDFTableExtractor.struct_text over the lines of the extracted text
(`self.text.splitlines()` is received as a list of lines; PDF text
extraction itself is an external collaborator):
classify each line, convert amounts, filter with the validator, then add
the installment and group columns. -/
def struct_text (gd : List (List Char × List Char)) (lines : List (List Char)) : List Row :=
  (((lines.filterMap classifyLine).map convertRow).filter
      (fun r => transaction_validator r.LUGAR r.DETALLE)).map (mkRow gd)

/-! Summary aggregator (PDFTableExtractor.transaction_resume and
resume_currency_format).  pandas specifics are modelled as documented:
`groupby` (with its default `sort=True`) enumerates groups in ascending
key order, `.sum()` skips null (NaN) amounts, `sort_values(ascending=False)`
reorders by summed amount descending (the order among equal sums is not
specified by the source, which uses an unstable quicksort), `round(2)` and
the `,.0f` float format round half to even. -/

/-- A null amount (NaN in pandas) contributes zero to a pandas sum. -/
def optVal (v : Option ℚ) : ℚ := v.getD 0

/-- Summed VALOR of one GRUPO (`groupby('GRUPO').sum()`, skipping nulls). -/
def groupSum (rows : List Row) (g : List Char) : ℚ :=
  ((rows.filter (fun r => r.GRUPO == g)).map (fun r => optVal r.VALOR)).sum

/-- The distinct GRUPO values of the table. -/
def uniqueKeys (rows : List Row) : List (List Char) :=
  (rows.map Row.GRUPO).dedup

/-- Lexicographic comparison of strings by code point, as pandas compares
group keys. -/
def lexLt : List Char → List Char → Bool
  | [], [] => false
  | [], _ :: _ => true
  | _ :: _, [] => false
  | a :: as, b :: bs => if a < b then true else if b < a then false else lexLt as bs

/-- Non-strict lexicographic order used to sort group keys ascending. -/
def keyLe (a b : List Char) : Prop := lexLt b a = false

instance : DecidableRel keyLe := fun a b => inferInstanceAs (Decidable (lexLt b a = false))

/-- Group keys in the ascending order produced by `groupby`. -/
def sortedKeys (rows : List Row) : List (List Char) :=
  List.insertionSort keyLe (uniqueKeys rows)

/-- The grouped table: one `(key, summed VALOR)` pair per distinct GRUPO. -/
def groupedSums (rows : List Row) : List (List Char × ℚ) :=
  (sortedKeys rows).map (fun k => (k, groupSum rows k))

/-- Descending order on summed amounts (`sort_values('VALOR', ascending=False)`). -/
def sumDesc (a b : List Char × ℚ) : Prop := b.2 ≤ a.2

instance : DecidableRel sumDesc := fun a b => inferInstanceAs (Decidable (b.2 ≤ a.2))

instance : IsTotal (List Char × ℚ) sumDesc := ⟨fun a b => le_total b.2 a.2⟩

instance : IsTrans (List Char × ℚ) sumDesc := ⟨fun _ _ _ h1 h2 => le_trans h2 h1⟩

/-- The grouped table after `sort_values('VALOR', ascending=False)`. -/
def sortedGroups (rows : List Row) : List (List Char × ℚ) :=
  List.insertionSort sumDesc (groupedSums rows)

/-- Grand total `df_resume['VALOR'].sum()` over all group sums. -/
def resumeTotal (rows : List Row) : ℚ :=
  ((sortedGroups rows).map Prod.snd).sum

/-- Floor of a rational (`Int.fdiv` is floor division; denominators are
positive). -/
def qfloor (q : ℚ) : ℤ := Int.fdiv q.num q.den

/-- Round to the nearest integer, ties to even: the rounding used by both
numpy's `round` and Python's `format` on floats. -/
def roundHalfEven (q : ℚ) : ℤ :=
  let f := qfloor q
  let r := q - (f : ℚ)
  if r < 1 / 2 then f
  else if 1 / 2 < r then f + 1
  else if f % 2 = 0 then f else f + 1

/-- pandas `Series.round(2)`: round half to even at two decimal places. -/
def roundQ2 (q : ℚ) : ℚ := (roundHalfEven (q * 100) : ℚ) / 100

/-- Decimal digit characters of `n`, most significant first (fuel-based so
the kernel can evaluate it; the fuel `n + 1` always suffices). -/
def natDigitsAux : Nat → Nat → List Char
  | 0, _ => []
  | fuel + 1, n =>
    if n < 10 then [Char.ofNat (48 + n)]
    else natDigitsAux fuel (n / 10) ++ [Char.ofNat (48 + n % 10)]

/-- Decimal digit characters of `n`, most significant first. -/
def natDigits (n : Nat) : List Char := natDigitsAux (n + 1) n

/-- Insert a `,` after every third character of a reversed digit list, as
Python's `,` format specifier groups thousands. -/
def group3Rev : List Char → List Char
  | a :: b :: c :: d :: rest => a :: b :: c :: ',' :: group3Rev (d :: rest)
  | l => l

/-- Python `f"{num:,.0f}"` on an integer value: sign, digits, and `,`
thousands separators. -/
def formatGrouped (n : ℤ) : List Char :=
  let g := (group3Rev (natDigits n.natAbs).reverse).reverse
  if n < 0 then '-' :: g else g

/-- PDFTableExtractor.resume_currency_format: format without decimals,
then swap `,` and `.` via the X-placeholder replace chain, and prefix `$`. -/
def resume_currency_format (q : ℚ) : List Char :=
  let s := formatGrouped (roundHalfEven q)
  '$' :: pyReplace 'X' '.' (pyReplace '.' ',' (pyReplace ',' 'X' s))

/-- Row of the final summary table `df_resume` (after `reset_index`). -/
structure ResumeRow where
  GRUPO : List Char
  VALOR : List Char
  PERCENTAGE : ℚ
deriving DecidableEq

/-- PDFTableExtractor.transaction_resume: group by GRUPO, sum VALOR, sort
descending, attach the rounded share of the grand total, format the sums. -/
def transaction_resume (rows : List Row) : List ResumeRow :=
  let total := resumeTotal rows
  (sortedGroups rows).map
    (fun p => ⟨p.1, resume_currency_format p.2, roundQ2 (p.2 / total)⟩)

/-- The ordered keyword-to-category mapping `group_dict` supplied to the
extractor by the document handler of the source. -/
def group_dict : List (List Char × List Char) :=
  [("COMERCIAL DECOSTORE", "DECORACION"),
   ("MERCADO PAGO 4 TCOM", "GYM"),
   ("UBER EATS", "DELIVERY"),
   ("UBER TRIP", "MOVILIDAD"),
   ("UBER", "MOVILIDAD"),
   ("TAXI", "MOVILIDAD"),
   ("RAPPI", "DELIVERY"),
   ("NIU", "DELIVERY"),
   ("MED", "MEDICO"),
   ("CRUZ VERDE", "MEDICO"),
   ("AHUM", "MEDICO"),
   ("SII", "SII"),
   ("SODIMAC", "DECORACION"),
   ("TOTTUS", "SUPERMERCADO"),
   ("JUMBO", "SUPERMERCADO"),
   ("BIRRA", "SALIDA/BAR"),
   ("BAR", "SALIDA/BAR"),
   ("ENTEL", "SERVICIOS"),
   ("AGUAS CORDILLERA", "SUPERMERCADO"),
   ("PLAYSTATION", "SUBSCRIPCION"),
   ("BOCAJUNIORS", "SUBSCRIPCION"),
   ("NETFLIX", "SUBSCRIPCION"),
   ("AMAZON", "SUBSCRIPCION"),
   ("APPLE", "SUBSCRIPCION"),
   ("GUACAMOLE", "DELIVERY"),
   ("FANTASILANDIA", "SALIDA/BAR"),
   ("MACONLINE", "SEGURO"),
   ("LATAM", "VUELOS"),
   ("COMUNIDAD FELIZ", "SERVICIOS"),
   ("TICKET MASTER", "SALIDAS/BAR"),
   ("NUI SUSHI", "DELIVERY")].map (fun p => (p.1.data, p.2.data))

/-! Concrete inputs and rows used to instantiate the claims. -/

/-- The cleaning step described for the Amount Normalizer: drop every `.`;
when a comma is present, turn it into the decimal point. -/
def pythonClean (s : List Char) : List Char :=
  if s.contains ',' then pyReplace ',' '.' (s.filter (fun c => c != '.'))
  else s.filter (fun c => c != '.')

/-- Scenario 1 input line. -/
def uberLine : List Char := "UBER TRIP 05/03/24 VIAJE A CASA $4.500".data

/-- The row the pipeline actually produces for `uberLine`. -/
def uberRow : Row :=
  ⟨"05/03/24".data, "UBER TRIP".data, "VIAJE A CASA".data, some 4500,
   false, none, none, "CONSUMO".data⟩

/-- A line whose text before the date is whitespace only. -/
def wsLine : List Char := " 05/03/24 VIAJE A CASA $4.500".data

/-- The raw tuple the classifier emits for `wsLine`. -/
def wsRaw : RawRow := ⟨"05/03/24".data, [], "VIAJE A CASA".data, "4.500".data⟩

/-- A line whose amount carries an en dash sign, which `float()` rejects. -/
def dashLine : List Char := "UBER 05/03/24 ALGO $–4.500".data

/-- The row produced for `dashLine`: the amount is null, the row is kept. -/
def dashRow : Row :=
  ⟨"05/03/24".data, "UBER".data, "ALGO".data, none,
   false, none, none, "CONSUMO".data⟩

/-- Scenario 3 input line. -/
def totalLine : List Char := "TOTAL OPERACIONES 05/03/24 $1.000.000".data

/-- A line with an echoed amount before the authoritative one. -/
def echoLine : List Char := "SUPER 05/03/24 PAGO $100 COMPRA $4.500".data

/-- The raw tuple the classifier emits for `echoLine`. -/
def echoRaw : RawRow :=
  ⟨"05/03/24".data, "SUPER".data, "PAGO $100 COMPRA".data, "4.500".data⟩

/-- An installment line whose current-installment number is zero. -/
def zeroLine : List Char := "UBER 05/03/24 COMPRA CUOTA 0/6 $1.000".data

/-- The row produced for `zeroLine`. -/
def zeroRow : Row :=
  ⟨"05/03/24".data, "UBER".data, "COMPRA CUOTA 0/6".data, some 1000,
   true, some 0, some 6, "CONSUMO".data⟩

/-- Scenario 2 input line. -/
def cuotaLine : List Char := "05/03/24 CUOTA 2/6 $13.859,00".data

/-- The row produced for `cuotaLine`. -/
def cuotaRow : Row :=
  ⟨"05/03/24".data, "SIN LUGAR".data, "CUOTA 2/6".data, some 13859,
   true, some 2, some 6, "CONSUMO".data⟩

/-- A plain transaction line used to exhibit row origins. -/
def originLine : List Char := "MERC 05/03/24 PAGO $2.000".data

/-- The row produced for `originLine`. -/
def originRow : Row :=
  ⟨"05/03/24".data, "MERC".data, "PAGO".data, some 2000,
   false, none, none, "CONSUMO".data⟩

/-- A transaction row of the aggregation scenario, category CATA. -/
def rowA : Row :=
  ⟨"01/01/24".data, "X".data, "A".data, some 300000, false, none, none, "CATA".data⟩

/-- A transaction row of the aggregation scenario, category CATB. -/
def rowB : Row :=
  ⟨"01/01/24".data, "X".data, "B".data, some 700000, false, none, none, "CATB".data⟩

end ResumenTC

namespace ResumenTC

/-! Helper lemmas. -/

/-- Anatomy of a successful line classification: the guards passed and the
emitted raw tuple is built from the match positions. -/
theorem classifyLine_some_parts (line : List Char) (r : RawRow)
    (h : classifyLine line = some r) :
    line.contains '$' = true ∧
    ∃ s e, dateSearch line = some (s, e) ∧
      ∃ v, (amountFindall line).getLast? = some v ∧
        r = ⟨pySlice s e line,
             if 0 < s then pyStrip (line.take s) else "SIN LUGAR".data,
             pyStrip (pySlice e ((lastIndexOf '$' line).getD 0) line), v⟩ := by
  unfold classifyLine at h
  by_cases hc : line.contains '$' = true
  · rw [if_pos hc] at h
    refine ⟨hc, ?_⟩
    cases hds : dateSearch line with
    | none => rw [hds] at h; exact absurd h (by simp)
    | some se =>
      rw [hds] at h
      cases hlast : (amountFindall line).getLast? with
      | none => rw [hlast] at h; exact absurd h (by simp)
      | some v =>
        rw [hlast] at h
        obtain ⟨s, e⟩ := se
        exact ⟨s, e, rfl, v, rfl, (Option.some.inj h).symm⟩
  · rw [if_neg hc] at h
    exact absurd h (by simp)

/-- A line failing any of the three guards is never emitted. -/
theorem classifyLine_none (line : List Char)
    (h : line.contains '$' = false ∨ dateSearch line = none ∨ amountFindall line = []) :
    classifyLine line = none := by
  unfold classifyLine
  by_cases hc : line.contains '$' = true
  · rw [if_pos hc]
    rcases h with h | h | h
    · rw [hc] at h; exact absurd h (by simp)
    · rw [h]
    · cases hds : dateSearch line with
      | none => rfl
      | some se => rw [h]; rfl
  · rw [if_neg hc]

/-- Every row of the structured table descends from a classified line of
the input that also passed the validator. -/
theorem struct_text_mem (gd : List (List Char × List Char)) (lines : List (List Char))
    (r : Row) (h : r ∈ struct_text gd lines) :
    ∃ line ∈ lines, ∃ raw, classifyLine line = some raw ∧
      transaction_validator (convertRow raw).LUGAR (convertRow raw).DETALLE = true ∧
      r = mkRow gd (convertRow raw) := by
  unfold struct_text at h
  obtain ⟨r1, hr1, hmk⟩ := List.mem_map.mp h
  obtain ⟨hr1m, hval⟩ := List.mem_filter.mp hr1
  obtain ⟨raw, hrawm, hconv⟩ := List.mem_map.mp hr1m
  obtain ⟨line, hline, hcl⟩ := List.mem_filterMap.mp hrawm
  subst hconv
  exact ⟨line, hline, raw, hcl, hval, hmk.symm⟩

/-- Installment fields of a constructed row, in terms of its description. -/
theorem mkRow_installments (gd : List (List Char × List Char)) (r1 : Row1) :
    ((mkRow gd r1).FG_CUOTA = true ↔
        containsSub "CUOTA".data (pyUpper (mkRow gd r1).DETALLE) = true) ∧
    ((mkRow gd r1).N_CUOTA.isSome ↔ (mkRow gd r1).CUOTAS_TOT.isSome) ∧
    ((mkRow gd r1).N_CUOTA.isSome ↔
        ((mkRow gd r1).FG_CUOTA = true ∧ (struct_cuotas (mkRow gd r1).DETALLE).isSome)) ∧
    (∀ a b, (mkRow gd r1).FG_CUOTA = true →
        struct_cuotas (mkRow gd r1).DETALLE = some (a, b) →
        (mkRow gd r1).N_CUOTA = some a ∧ (mkRow gd r1).CUOTAS_TOT = some b) := by
  by_cases hfg : containsSub "CUOTA".data (pyUpper r1.DETALLE) = true
  · cases hsc : struct_cuotas r1.DETALLE with
    | none => simp [mkRow, hfg, hsc]
    | some p =>
      simp only [mkRow, hfg, hsc]
      refine ⟨by simp, by simp, by simp, ?_⟩
      rintro a b - hab
      rw [hab]
      exact ⟨rfl, rfl⟩
  · simp [mkRow, hfg]

/-- Summing the null-as-zero values of a row list is summing its non-null
values. -/
theorem sum_optVal_eq_filterMap (l : List Row) :
    (l.map (fun r => optVal r.VALOR)).sum = (l.filterMap Row.VALOR).sum := by
  simp only [optVal]
  induction l with
  | nil => rfl
  | cons r rs ih =>
    cases hv : r.VALOR with
    | none => simp [hv, ih]
    | some v => simp [hv, ih]

/-- Pointwise sums split over a list. -/
theorem sum_map_addQ {α : Type} (f g : α → ℚ) (K : List α) :
    (K.map (fun k => f k + g k)).sum = (K.map f).sum + (K.map g).sum := by
  induction K with
  | nil => simp
  | cons a as ih => simp [ih]; ring

/-- A one-hot sum over keys not containing the hot key is zero. -/
theorem sum_ite_zero (v : ℚ) (a : List Char) (K : List (List Char)) (ha : a ∉ K) :
    (K.map (fun k => if a = k then v else 0)).sum = 0 := by
  induction K with
  | nil => rfl
  | cons b bs ih =>
    have hab : ¬a = b := fun h => ha (h ▸ List.mem_cons_self b bs)
    have habs : a ∉ bs := fun h => ha (List.mem_cons_of_mem b h)
    simp [hab, ih habs]

/-- A one-hot sum over distinct keys containing the hot key once is the
hot value. -/
theorem sum_ite_single (v : ℚ) (a : List Char) (K : List (List Char))
    (hnd : K.Nodup) (ha : a ∈ K) :
    (K.map (fun k => if a = k then v else 0)).sum = v := by
  induction K with
  | nil => exact absurd ha (List.not_mem_nil a)
  | cons b bs ih =>
    rcases List.mem_cons.mp ha with hab | habs
    · have hnb : a ∉ bs := hab ▸ (List.nodup_cons.mp hnd).1
      simp only [hab]
      have h0 : (bs.map (fun k => if b = k then v else 0)).sum = 0 :=
        sum_ite_zero v b bs (hab ▸ hnb)
      simp [h0]
    · have hab : ¬a = b := by
        intro h
        exact (List.nodup_cons.mp hnd).1 (h ▸ habs)
      simp [hab, ih (List.nodup_cons.mp hnd).2 habs]

/-- Group sum of a non-empty table, split on the head row. -/
theorem groupSum_cons (r : Row) (rs : List Row) (k : List Char) :
    groupSum (r :: rs) k =
      (if r.GRUPO = k then optVal r.VALOR else 0) + groupSum rs k := by
  by_cases h : r.GRUPO = k
  · simp [groupSum, List.filter_cons, h]
  · simp [groupSum, List.filter_cons, h]

/-- Summing the per-group sums over any duplicate-free key list covering
the table recovers the total of all (null-as-zero) amounts. -/
theorem keys_partition (rows : List Row) (K : List (List Char)) (hnd : K.Nodup)
    (hcov : ∀ r ∈ rows, r.GRUPO ∈ K) :
    (K.map (groupSum rows)).sum = (rows.map (fun r => optVal r.VALOR)).sum := by
  induction rows with
  | nil =>
    have hz : K.map (groupSum []) = K.map (fun _ => (0 : ℚ)) :=
      List.map_congr_left (fun k _ => rfl)
    rw [hz]
    simp
  | cons r rs ih =>
    have hcov' : ∀ x ∈ rs, x.GRUPO ∈ K := fun x hx => hcov x (List.mem_cons_of_mem r hx)
    have h1 : (K.map (groupSum (r :: rs))).sum =
        (K.map (fun k => (if r.GRUPO = k then optVal r.VALOR else 0) + groupSum rs k)).sum := by
      congr 1
      exact List.map_congr_left (fun k _ => groupSum_cons r rs k)
    rw [h1, sum_map_addQ, ih hcov',
      sum_ite_single (optVal r.VALOR) r.GRUPO K hnd (hcov r (List.mem_cons_self r rs))]
    simp

/-! Claim theorems. -/

unseal Rat.add Rat.sub Rat.mul Rat.inv in
/-- C1, counterexample: on the Scenario 1 line
`UBER TRIP 05/03/24 VIAJE A CASA $4.500` the pipeline produces exactly one
row with date 05/03/24, place UBER TRIP, description VIAJE A CASA and
amount 4500, but its category is CONSUMO, not MOVILIDAD as claimed: the
categorizer only sees the description, and no keyword occurs in
VIAJE A CASA. -/
theorem c1_scenario1_counterexample :
    struct_text group_dict [uberLine] = [uberRow] ∧ uberRow.GRUPO ≠ "MOVILIDAD".data := by
  decide

unseal Rat.add Rat.sub Rat.mul Rat.inv in
/-- C1, amended: the Scenario 1 line produces exactly one row with
date 05/03/24, place UBER TRIP, description VIAJE A CASA, amount 4500,
no installment fields, and category CONSUMO (the default, because keyword
lookup runs over the description only). -/
theorem c1_scenario1_amended : struct_text group_dict [uberLine] = [uberRow] := by
  decide

/-- C2, counterexample: on a line whose text before the date is a single
space, the classifier emits the empty string as the place, not the
SIN LUGAR sentinel — the sentinel is chosen only when the date starts at
position 0. -/
theorem c2_place_counterexample :
    (classifyLine wsLine).map RawRow.lugar = some [] ∧
    "SIN LUGAR".data ≠ ([] : List Char) := by
  decide

/-- C2, amended: for every classified line, the emitted place is the
SIN LUGAR sentinel exactly when the first date match starts at position 0
of the line; otherwise it is the trimmed text before the date, which is
the empty string (not the sentinel) when that text is whitespace only. -/
theorem c2_place_amended (line : List Char) (r : RawRow) (h : classifyLine line = some r) :
    (∀ e, dateSearch line = some (0, e) → r.lugar = "SIN LUGAR".data) ∧
    (∀ s e, dateSearch line = some (s, e) → 0 < s → r.lugar = pyStrip (line.take s)) := by
  obtain ⟨hc, s0, e0, hds, v, hlast, hr⟩ := classifyLine_some_parts line r h
  constructor
  · intro e hde
    rw [hds] at hde
    simp only [Option.some.injEq, Prod.mk.injEq] at hde
    rw [hr]
    simp [hde.1.symm]
  · intro s e hde hs
    rw [hds] at hde
    simp only [Option.some.injEq, Prod.mk.injEq] at hde
    rw [hr]
    show (if 0 < s0 then pyStrip (line.take s0) else "SIN LUGAR".data) = pyStrip (line.take s)
    rw [hde.1, if_pos hs]

/-- C2, witness for the amended theorem at the whitespace-place line. -/
theorem c2_place_amended_witness : wsRaw.lugar = pyStrip (wsLine.take 1) :=
  (c2_place_amended wsLine wsRaw (by decide)).2 1 9 (by decide) (by decide)

unseal Rat.add Rat.sub Rat.mul Rat.inv in
/-- C3: the normalizer equals float parsing after the claimed cleaning
(drop `.`; a `,` becomes the decimal point), an unparseable cleaned string
(the en dash sign the amount regex admits) yields a null amount rather
than an error, and the owning row stays in the transaction table with its
null amount. -/
theorem c3_normalizer :
    (∀ s : List Char, convert_amount s = pyFloat (pythonClean s)) ∧
    convert_amount "–4.500".data = none ∧
    struct_text group_dict [dashLine] = [dashRow] :=
  ⟨fun _ => rfl, by decide, by decide⟩

unseal Rat.add Rat.sub Rat.mul Rat.inv in
/-- C4: a classified row is rejected by the validator exactly when the
uppercased sentinel-substituted place-space-description text contains one
of the five exclusion keywords, or the description itself contains a date
pattern; in particular the Scenario 3 line
`TOTAL OPERACIONES 05/03/24 $1.000.000` produces no row at all. -/
theorem c4_validator :
    (∀ lugar detalle : List Char,
        transaction_validator lugar detalle = false ↔
          ((∃ kw ∈ exclude_keywords, containsSub kw (combinedUpper lugar detalle) = true) ∨
            (dateSearch detalle).isSome = true)) ∧
    struct_text group_dict [totalLine] = [] := by
  constructor
  · intro lugar detalle
    unfold transaction_validator
    by_cases h1 :
        exclude_keywords.any (fun k => containsSub k (combinedUpper lugar detalle)) = true
    · rw [if_pos h1]
      exact iff_of_true rfl (Or.inl (by simpa using List.any_eq_true.mp h1))
    · rw [if_neg h1]
      have h1' : ¬∃ kw ∈ exclude_keywords, containsSub kw (combinedUpper lugar detalle) = true := by
        intro hex
        exact h1 (List.any_eq_true.mpr (by simpa using hex))
      by_cases h2 : (dateSearch detalle).isSome = true
      · rw [if_pos h2]
        exact iff_of_true rfl (Or.inr h2)
      · rw [if_neg h2]
        constructor
        · intro hft
          exact absurd hft (by simp)
        · rintro (hex | hds)
          · exact absurd hex h1'
          · exact absurd hds h2
  · decide

/-- C5: for every classified line, the emitted amount string is the last
amount-pattern match of the line, and the emitted description is the
trimmed slice from the end of the first date match to the index of the
last literal dollar character (not to the last amount match). -/
theorem c5_classifier_fields (line : List Char) (r : RawRow)
    (h : classifyLine line = some r) :
    (amountFindall line).getLast? = some r.valor ∧
    ∀ s e, dateSearch line = some (s, e) →
      r.detalle = pyStrip (pySlice e ((lastIndexOf '$' line).getD 0) line) := by
  obtain ⟨hc, s0, e0, hds, v, hlast, hr⟩ := classifyLine_some_parts line r h
  constructor
  · rw [hr]
    exact hlast
  · intro s e hde
    rw [hds] at hde
    simp only [Option.some.injEq, Prod.mk.injEq] at hde
    rw [hr, ← hde.2]

/-- C5, witness at a line carrying an echoed earlier amount: the last
match 4.500 is the emitted amount, and the description keeps the echoed
`$100` text because it runs to the last dollar character. -/
theorem c5_classifier_fields_witness :
    (amountFindall echoLine).getLast? = some echoRaw.valor ∧
    echoRaw.detalle = pyStrip (pySlice 14 ((lastIndexOf '$' echoLine).getD 0) echoLine) :=
  ⟨(c5_classifier_fields echoLine echoRaw (by decide)).1,
   (c5_classifier_fields echoLine echoRaw (by decide)).2 6 14 (by decide)⟩

unseal Rat.add Rat.sub Rat.mul Rat.inv in
/-- C6, counterexample: the final table can hold an installment row whose
parsed installment index is 0, which is not a positive integer — the
digit pattern of the source accepts a zero numerator. -/
theorem c6_installment_counterexample :
    struct_text group_dict [zeroLine] = [zeroRow] ∧ zeroRow.FG_CUOTA = true ∧
    zeroRow.N_CUOTA = some 0 ∧ ¬0 < 0 := by
  decide

/-- C6, amended: in every final-table row, the installment flag is set
exactly when the description contains CUOTA case-insensitively; the two
installment count fields are present together or absent together, present
exactly when the flag is set and the trailing digits-slash-digits pattern
matches, and then they hold the two parsed (nonnegative, possibly zero)
numbers. -/
theorem c6_installments_amended (gd : List (List Char × List Char))
    (lines : List (List Char)) (r : Row) (h : r ∈ struct_text gd lines) :
    (r.FG_CUOTA = true ↔ containsSub "CUOTA".data (pyUpper r.DETALLE) = true) ∧
    (r.N_CUOTA.isSome ↔ r.CUOTAS_TOT.isSome) ∧
    (r.N_CUOTA.isSome ↔ (r.FG_CUOTA = true ∧ (struct_cuotas r.DETALLE).isSome)) ∧
    (∀ a b, r.FG_CUOTA = true → struct_cuotas r.DETALLE = some (a, b) →
      r.N_CUOTA = some a ∧ r.CUOTAS_TOT = some b) := by
  obtain ⟨line, hline, raw, hcl, hval, hr⟩ := struct_text_mem gd lines r h
  subst hr
  exact mkRow_installments gd (convertRow raw)

unseal Rat.add Rat.sub Rat.mul Rat.inv in
/-- C6, witness for the amended theorem at the Scenario 2 line. -/
theorem c6_installments_amended_witness :
    cuotaRow.N_CUOTA = some 2 ∧ cuotaRow.CUOTAS_TOT = some 6 :=
  (c6_installments_amended group_dict [cuotaLine] cuotaRow (by decide)).2.2.2 2 6
    (by decide) (by decide)

/-- C7: the categorizer returns the category of the first keyword in the
mapping's declaration order occurring in the uppercased description, the
default CONSUMO when none does; on `BAR TAXI` the earlier-declared TAXI
wins over BAR although BAR occurs earlier in the text. -/
theorem c7_categorizer :
    (∀ (gd : List (List Char × List Char)) (d : List Char),
        assign_group gd d =
          match gd.find? (fun p => containsSub p.1 (pyUpper d)) with
          | some p => p.2
          | none => "CONSUMO".data) ∧
    assign_group group_dict "BAR TAXI".data = "MOVILIDAD".data := by
  constructor
  · intro gd d
    induction gd with
    | nil => rfl
    | cons p rest ih =>
      obtain ⟨k, g⟩ := p
      by_cases hk : containsSub k (pyUpper d) = true
      · rw [@List.find?_cons_of_pos _ (fun p => containsSub p.1 (pyUpper d)) (k, g) rest hk]
        simp [assign_group, hk]
      · rw [@List.find?_cons_of_neg _ (fun p => containsSub p.1 (pyUpper d)) (k, g) rest hk]
        simp only [assign_group, hk]
        simpa using ih
  · decide

unseal Rat.add Rat.sub Rat.mul Rat.inv in
/-- C8: on two categories summing 300000 and 700000 the aggregator
produces the descending rows CATB then CATA with formatted sums $700.000
and $300.000 and shares 0.70 and 0.30; in general its output order is
sorted by summed amount descending and each row carries the rounded share
of the grand total together with the formatted sum. -/
theorem c8_summary :
    transaction_resume [rowA, rowB] =
      [⟨"CATB".data, "$700.000".data, 7 / 10⟩, ⟨"CATA".data, "$300.000".data, 3 / 10⟩] ∧
    (∀ rows : List Row, List.Sorted sumDesc (sortedGroups rows)) ∧
    (∀ rows : List Row,
        transaction_resume rows =
          (sortedGroups rows).map
            (fun p => ⟨p.1, resume_currency_format p.2, roundQ2 (p.2 / resumeTotal rows)⟩)) := by
  refine ⟨by decide, fun rows => ?_, fun rows => rfl⟩
  exact List.sorted_insertionSort sumDesc (groupedSums rows)

/-- C9: every row of the final table originates from an input line that
contains a dollar character, a date-pattern match and at least one
amount-pattern match; a line missing any of the three is never
classified into a row. -/
theorem c9_row_origin (gd : List (List Char × List Char)) (lines : List (List Char))
    (r : Row) (h : r ∈ struct_text gd lines) :
    (∃ line ∈ lines, line.contains '$' = true ∧ (dateSearch line).isSome = true ∧
        amountFindall line ≠ []) ∧
    (∀ line : List Char,
        line.contains '$' = false ∨ dateSearch line = none ∨ amountFindall line = [] →
        classifyLine line = none) := by
  constructor
  · obtain ⟨line, hline, raw, hcl, hval, hr⟩ := struct_text_mem gd lines r h
    obtain ⟨hc, s, e, hds, v, hlast, hraw⟩ := classifyLine_some_parts line raw hcl
    refine ⟨line, hline, hc, by simp [hds], ?_⟩
    intro hempty
    rw [hempty] at hlast
    simp at hlast
  · exact fun line => classifyLine_none line

unseal Rat.add Rat.sub Rat.mul Rat.inv in
/-- C9, witness at a plain transaction line. -/
theorem c9_row_origin_witness :
    ∃ line ∈ [originLine], line.contains '$' = true ∧ (dateSearch line).isSome = true ∧
      amountFindall line ≠ [] :=
  (c9_row_origin group_dict [originLine] originRow (by decide)).1

/-- C10: each category's summed amount is the sum of only the non-null
amounts of that category's rows, and the grand total used for the shares
is the sum of all non-null amounts — rows whose amount failed to parse
contribute nothing. -/
theorem c10_null_amounts :
    (∀ (rows : List Row) (g : List Char),
        groupSum rows g = ((rows.filter (fun r => r.GRUPO == g)).filterMap Row.VALOR).sum) ∧
    (∀ rows : List Row, resumeTotal rows = (rows.filterMap Row.VALOR).sum) := by
  constructor
  · intro rows g
    exact sum_optVal_eq_filterMap (rows.filter (fun r => r.GRUPO == g))
  · intro rows
    have hperm1 : List.Perm (sortedGroups rows) (groupedSums rows) :=
      List.perm_insertionSort _ _
    have h1 : ((sortedGroups rows).map Prod.snd).sum = ((groupedSums rows).map Prod.snd).sum :=
      (hperm1.map Prod.snd).sum_eq
    have h2 : (groupedSums rows).map Prod.snd =
        (sortedKeys rows).map (fun k => groupSum rows k) := by
      simp [groupedSums, List.map_map, Function.comp]
    have hperm2 : List.Perm (sortedKeys rows) (uniqueKeys rows) :=
      List.perm_insertionSort _ _
    have h3 : ((sortedKeys rows).map (fun k => groupSum rows k)).sum =
        ((uniqueKeys rows).map (fun k => groupSum rows k)).sum :=
      (hperm2.map _).sum_eq
    have hnd : (uniqueKeys rows).Nodup := List.nodup_dedup _
    have hcov : ∀ x ∈ rows, x.GRUPO ∈ uniqueKeys rows := by
      intro x hx
      exact List.mem_dedup.mpr (List.mem_map.mpr ⟨x, hx, rfl⟩)
    calc resumeTotal rows = ((sortedGroups rows).map Prod.snd).sum := rfl
      _ = ((groupedSums rows).map Prod.snd).sum := h1
      _ = ((sortedKeys rows).map (fun k => groupSum rows k)).sum := by rw [h2]
      _ = ((uniqueKeys rows).map (fun k => groupSum rows k)).sum := h3
      _ = (rows.map (fun r => optVal r.VALOR)).sum :=
        keys_partition rows (uniqueKeys rows) hnd hcov
      _ = (rows.filterMap Row.VALOR).sum := sum_optVal_eq_filterMap rows

end ResumenTC
